import Mathlib

/-!
Verification of the "El Consejero del Ingenio" chat client (src/index.tsx).

The file shallowly embeds the non-UI logic of the single source file:
the persistent memory subsystem backed by `localStorage`, the prompt
templates, the `GeminiService` session object, and the `handleSend` /
`handleClearMemory` event handlers of the `App` component.  Network
responses of the hosted-model SDK are nondeterministic inputs, so they
are passed in as explicit oracle data (the list of streamed chunks,
whether the stream throws, and the parsed result of the insight
extraction call).
-/

namespace Criba

/-! ### Generic list helpers

`setDedup` models `Array.from(new Set(xs))` for a list of strings: it keeps
the first occurrence of each element, in encounter order.  `sliceLast n`
models `xs.slice(-n)`: the last `n` elements (all of them when the list is
shorter). -/

def setDedupGo (seen : List String) : List String → List String
  | [] => []
  | a :: l => if a ∈ seen then setDedupGo seen l else a :: setDedupGo (a :: seen) l

def setDedup (l : List String) : List String :=
  setDedupGo [] l

def sliceLast (n : Nat) (l : List α) : List α :=
  l.drop (l.length - n)

/-! ### JSON values

Modelled from the spec: the browser's `JSON.parse` / `JSON.stringify`
builtins, which are not part of the repository source.  `Json` is the
result type; numbers keep their source lexeme (their numeric value is
never inspected by the program). -/

inductive Json where
  | null
  | bool (b : Bool)
  | num (lexeme : String)
  | str (s : String)
  | arr (elems : List Json)
  | obj (fields : List (String × Json))
deriving Repr

def skipWs : List Char → List Char
  | [] => []
  | c :: cs => if c = ' ' ∨ c = '\t' ∨ c = '\n' ∨ c = '\r' then skipWs cs else c :: cs

def hexVal (c : Char) : Option Nat :=
  if '0' ≤ c ∧ c ≤ '9' then some (c.toNat - '0'.toNat)
  else if 'a' ≤ c ∧ c ≤ 'f' then some (c.toNat - 'a'.toNat + 10)
  else if 'A' ≤ c ∧ c ≤ 'F' then some (c.toNat - 'A'.toNat + 10)
  else none

/-- Body of a JSON string literal, after the opening quote; returns the
decoded string and the input following the closing quote. -/
def parseStringBody : List Char → Option (List Char × List Char)
  | [] => none
  | '"' :: rest => some ([], rest)
  | '\\' :: esc =>
    match esc with
    | '"' :: rest => (parseStringBody rest).map (fun p => ('"' :: p.1, p.2))
    | '\\' :: rest => (parseStringBody rest).map (fun p => ('\\' :: p.1, p.2))
    | '/' :: rest => (parseStringBody rest).map (fun p => ('/' :: p.1, p.2))
    | 'b' :: rest => (parseStringBody rest).map (fun p => ('\x08' :: p.1, p.2))
    | 'f' :: rest => (parseStringBody rest).map (fun p => ('\x0c' :: p.1, p.2))
    | 'n' :: rest => (parseStringBody rest).map (fun p => ('\n' :: p.1, p.2))
    | 'r' :: rest => (parseStringBody rest).map (fun p => ('\r' :: p.1, p.2))
    | 't' :: rest => (parseStringBody rest).map (fun p => ('\t' :: p.1, p.2))
    | 'u' :: h1 :: h2 :: h3 :: h4 :: rest =>
      match hexVal h1, hexVal h2, hexVal h3, hexVal h4 with
      | some a, some b, some c, some d =>
        (parseStringBody rest).map
          (fun p => (Char.ofNat (((a * 16 + b) * 16 + c) * 16 + d) :: p.1, p.2))
      | _, _, _, _ => none
    | _ => none
  | c :: rest =>
    if c.toNat < 32 then none
    else (parseStringBody rest).map (fun p => (c :: p.1, p.2))

def takeDigits : List Char → (List Char × List Char)
  | [] => ([], [])
  | c :: cs =>
    if c.isDigit then
      let p := takeDigits cs
      (c :: p.1, p.2)
    else ([], c :: cs)

/-- Lexeme of a JSON number (sign, integer part without leading zeros,
optional fraction, optional exponent). -/
def parseNumberLexeme (cs : List Char) : Option (List Char × List Char) := do
  let (sign, cs1) := match cs with
    | '-' :: rest => ([('-' : Char)], rest)
    | _ => ([], cs)
  let (intPart, cs2) := takeDigits cs1
  match intPart with
  | [] => none
  | d :: ds => do
    if d = '0' ∧ ds ≠ [] then none
    let (fracPart, cs3) :=
      match cs2 with
      | '.' :: rest =>
        let p := takeDigits rest
        if p.1 = [] then ([], cs2) else (('.' : Char) :: p.1, p.2)
      | _ => ([], cs2)
    if fracPart = [] ∧ (match cs2 with | '.' :: _ => true | _ => false) = true then none
    let (expPart, cs4) :=
      match cs3 with
      | e :: rest =>
        if e = 'e' ∨ e = 'E' then
          let (esign, rest2) := match rest with
            | '+' :: r => ([('+' : Char)], r)
            | '-' :: r => ([('-' : Char)], r)
            | _ => ([], rest)
          let p := takeDigits rest2
          if p.1 = [] then ([], cs3) else (e :: (esign ++ p.1), p.2)
        else ([], cs3)
      | [] => ([], cs3)
    some (sign ++ intPart ++ fracPart ++ expPart, cs4)

mutual

def parseVal : Nat → List Char → Option (Json × List Char)
  | 0, _ => none
  | fuel + 1, cs =>
    match skipWs cs with
    | [] => none
    | 'n' :: 'u' :: 'l' :: 'l' :: rest => some (Json.null, rest)
    | 't' :: 'r' :: 'u' :: 'e' :: rest => some (Json.bool true, rest)
    | 'f' :: 'a' :: 'l' :: 's' :: 'e' :: rest => some (Json.bool false, rest)
    | '"' :: rest =>
      (parseStringBody rest).map (fun p => (Json.str (String.mk p.1), p.2))
    | '[' :: rest =>
      (parseArrItems fuel (skipWs rest) true).map (fun p => (Json.arr p.1, p.2))
    | '\x7b' :: rest =>
      (parseObjItems fuel (skipWs rest) true).map (fun p => (Json.obj p.1, p.2))
    | c :: rest =>
      if c = '-' ∨ c.isDigit then
        (parseNumberLexeme (c :: rest)).map (fun p => (Json.num (String.mk p.1), p.2))
      else none

/-- Items of a JSON array; `first` is true before the first element. -/
def parseArrItems : Nat → List Char → Bool → Option (List Json × List Char)
  | 0, _, _ => none
  | _ + 1, [], _ => none
  | fuel + 1, c :: cs, first =>
    if c = ']' then some ([], cs)
    else do
      let cs0 ←
        if first then some (c :: cs)
        else if c = ',' then some cs else none
      let (v, rest) ← parseVal fuel cs0
      let (vs, rest2) ← parseArrItems fuel (skipWs rest) false
      some (v :: vs, rest2)

/-- Members of a JSON object; `first` is true before the first member. -/
def parseObjItems : Nat → List Char → Bool → Option (List (String × Json) × List Char)
  | 0, _, _ => none
  | _ + 1, [], _ => none
  | fuel + 1, c :: cs, first =>
    if c = '\x7d' then some ([], cs)
    else do
      let cs0 ←
        if first then some (c :: cs)
        else if c = ',' then some cs else none
      let (k, rest) ←
        match skipWs cs0 with
        | '"' :: r => parseStringBody r
        | _ => none
      let rest2 ←
        match skipWs rest with
        | ':' :: r => some r
        | _ => none
      let (v, rest3) ← parseVal fuel rest2
      let (fs, rest4) ← parseObjItems fuel (skipWs rest3) false
      some ((String.mk k, v) :: fs, rest4)

end

/-- Modelled from the spec: the browser builtin `JSON.parse`, returning
`none` where the builtin throws a `SyntaxError`. -/
def parseJson (s : String) : Option Json :=
  match parseVal (2 * s.length + 4) s.data with
  | some (v, rest) => if skipWs rest = [] then some v else none
  | none => none

def escapeChar (c : Char) : String :=
  if c = '"' then "\\\""
  else if c = '\\' then "\\\\"
  else if c = '\n' then "\\n"
  else if c = '\r' then "\\r"
  else if c = '\t' then "\\t"
  else if c = '\x08' then "\\b"
  else if c = '\x0c' then "\\f"
  else if c.toNat < 32 then
    let lo := c.toNat % 16
    let hi := c.toNat / 16 % 16
    let hexDigit := fun (n : Nat) =>
      if n < 10 then Char.ofNat ('0'.toNat + n) else Char.ofNat ('a'.toNat + n - 10)
    String.mk ['\\', 'u', '0', '0', hexDigit hi, hexDigit lo]
  else String.mk [c]

def escapeString (s : String) : String :=
  "\"" ++ String.join (s.data.map escapeChar) ++ "\""

mutual

/-- Modelled from the spec: the browser builtin `JSON.stringify`. -/
def stringifyJson : Json → String
  | Json.null => "null"
  | Json.bool true => "true"
  | Json.bool false => "false"
  | Json.num lexeme => lexeme
  | Json.str s => escapeString s
  | Json.arr elems => "[" ++ stringifyArr elems ++ "]"
  | Json.obj fields => "\x7b" ++ stringifyObj fields ++ "\x7d"

def stringifyArr : List Json → String
  | [] => ""
  | [v] => stringifyJson v
  | v :: vs => stringifyJson v ++ "," ++ stringifyArr vs

def stringifyObj : List (String × Json) → String
  | [] => ""
  | [(k, v)] => escapeString k ++ ":" ++ stringifyJson v
  | (k, v) :: fs => escapeString k ++ ":" ++ stringifyJson v ++ "," ++ stringifyObj fs

end

/-! ### Decoding the stored memory blob

JavaScript object property access on the result of `JSON.parse`:
with duplicate keys the later member wins. -/

def jLookup (fields : List (String × Json)) (key : String) : Option Json :=
  fields.foldl (fun acc kv => if kv.1 = key then some kv.2 else acc) none

def asStringArray : Json → Option (List String)
  | Json.arr elems =>
    elems.mapM (fun v => match v with | Json.str s => some s | _ => none)
  | _ => none

/-- The `facts` and `preferences` fields of a parsed memory blob, provided
both are arrays of strings (the only shape on which the TypeScript code
runs without throwing); `lastUpdated` is never read back by the program. -/
def memFromJson : Json → Option (List String × List String)
  | Json.obj fields => do
    let facts ← jLookup fields "facts" >>= asStringArray
    let preferences ← jLookup fields "preferences" >>= asStringArray
    some (facts, preferences)
  | _ => none

/-- Whether a JSON value is a `UserMemory` record in the sense of the
`UserMemory` interface: string arrays `facts` and `preferences` plus a
string `lastUpdated`. -/
def isUserMemoryJson : Json → Bool
  | Json.obj fields =>
    (match jLookup fields "facts" with
      | some v => (asStringArray v).isSome
      | none => false)
    && (match jLookup fields "preferences" with
      | some v => (asStringArray v).isSome
      | none => false)
    && (match jLookup fields "lastUpdated" with
      | some (Json.str _) => true
      | _ => false)
  | _ => false

/-! ### localStorage and the persistent memory subsystem -/

/-- Modelled from the spec: the browser's `localStorage`, a string-keyed
map of strings, embedded as an association list without duplicate keys. -/
abbrev Store : Type := List (String × String)

def lookupStore (store : Store) (key : String) : Option String :=
  match store with
  | [] => none
  | kv :: rest => if kv.1 = key then some kv.2 else lookupStore rest key

def setItem (store : Store) (key value : String) : Store :=
  (store.filter (fun kv => kv.1 ≠ key)) ++ [(key, value)]

def removeItem (store : Store) (key : String) : Store :=
  store.filter (fun kv => kv.1 ≠ key)

def MEMORY_KEY : String := "consejero_ingenio_memory_v1"

/-- The object literal built in both fallback branches of
`getStoredMemory`; `now` stands for `new Date().toISOString()`. -/
def defaultMemoryJson (now : String) : Json :=
  Json.obj [("facts", Json.arr []), ("preferences", Json.arr []),
    ("lastUpdated", Json.str now)]

/-- `getStoredMemory` of src/index.tsx.  `cell` is
`localStorage.getItem(MEMORY_KEY)`.  The result of `JSON.parse` is
returned unvalidated, exactly as in the source, so the return type is
`Json` rather than a `UserMemory` record. -/
def getStoredMemory (cell : Option String) (now : String) : Json :=
  match cell with
  | none => defaultMemoryJson now
  | some s =>
    match parseJson s with
    | some v => v
    | none => defaultMemoryJson now

def memJson (facts preferences : List String) (now : String) : Json :=
  Json.obj [("facts", Json.arr (facts.map Json.str)),
    ("preferences", Json.arr (preferences.map Json.str)),
    ("lastUpdated", Json.str now)]

/-- `saveMemory` of src/index.tsx: stringify the record, with
`lastUpdated` replaced by the current time, under `MEMORY_KEY`. -/
def saveMemory (store : Store) (facts preferences : List String) (now : String) : Store :=
  setItem store MEMORY_KEY (stringifyJson (memJson facts preferences now))

/-- One merged list of `updateMemoryFromText`:
`Array.from(new Set([...current, ...incoming])).slice(-12)`. -/
def mergeMemoryEntries (current incoming : List String) : List String :=
  sliceLast 12 (setDedup (current ++ incoming))

/-- `updateMemoryFromText` of src/index.tsx.  Returns `none` when the
stored blob does not decode to the two string lists (the TypeScript code
would throw while spreading `current.facts`). -/
def updateMemoryFromText (store : Store) (now : String)
    (newFacts newPreferences : List String) : Option Store :=
  match memFromJson (getStoredMemory (lookupStore store MEMORY_KEY) now) with
  | none => none
  | some (currentFacts, currentPreferences) =>
    some (saveMemory store (mergeMemoryEntries currentFacts newFacts)
      (mergeMemoryEntries currentPreferences newPreferences) now)

/-! ### Prompt templates (the static strings of src/index.tsx) -/

def CONSTITUTION_PROMPT : String :=
  "\n1.0 Misión Principal y Rol Central\nYo soy \"El Consejero del Ingenio\". No soy una inteligencia artificial convencional, sino un asesor estratégico diseñado para razonar con la prudencia de Baltasar Gracián, el pensamiento crítico de Moris Polanco y la visión inventiva de Giambattista Vico. Mi propósito es actuar como la capa axiológica en la pila de toma de decisiones, potenciando el juicio humano.\n\n2.0 Principios Rectores (Axiomas)\n- Principio I: La Supremacía del Ingenium sobre la Ratio.\n- Principio II: El Pensamiento como \"Criba de Oro\", no como \"Esponja\".\n- Principio III: Distinción entre Problemas Descriptivos y Prescriptivos.\n- Principio IV: La Realidad como Construcción Civil (Verum Ipsum Factum).\n"

def DEEP_DIVE_PROMPT : String :=
  "\n" ++ CONSTITUTION_PROMPT ++
  "\n\nMODO: ANÁLISIS PROFUNDO (AUDITORÍA EPISTEMOLÓGICA)\nEn este modo, el usuario proporcionará un texto, propuesta o documento. Tu tarea es realizar un escrutinio implacable e inquisitivo.\nIgnora la cortesía superficial y busca la verdad subyacente.\n\nEstructura Obligatoria de Respuesta:\n1. ANATOMÍA DEL ARGUMENTO: Desglosa la tesis central y las premisas.\n2. INVENTARIO DE SUPUESTOS (CRIBA DE ORO): Enumera cada supuesto oculto que el autor da por sentado.\n3. MAPA DE SESGOS Y FALACIAS: Identifica sesgos cognitivos y fallas lógicas.\n4. TENSIÓN RATIO-INGENIUM: ¿Es un razonamiento puramente algorítmico o hay visión humana?\n5. VEREDICTO ESTRATÉGICO: Clasifica la solidez del texto (Frágil, Robusto o Antifrágil).\n"

def DISCRETION_PROMPT : String :=
  "\n" ++ CONSTITUTION_PROMPT ++
  "\n\nMODO: ORÁCULO DE LA DISCRECIÓN (ARTE DE LA PRUDENCIA)\nBasado profundamente en Baltasar Gracián. Este modo no busca la verdad lógica, sino la eficacia social y el \"buen gusto\" estratégico.\nTu enfoque es el Kairós (el momento oportuno), el disimulo sagaz y la navegación de voluntades ajenas.\n\nEstructura Obligatoria de Respuesta:\n1. ANÁLISIS DEL MOMENTO (KAIRÓS): ¿Es tiempo de actuar, callar o esperar? Evalúa la urgencia vs la madurez del asunto.\n2. MAPA DE VOLUNTADES: Identifica quiénes son los actores y qué pretenden ocultar.\n3. EL ARTE DEL DISIMULO: Sugiere qué partes de la estrategia deben permanecer en la sombra para mantener la ventaja.\n4. LA POSTURA DISCRETA: Cómo debe presentarse el usuario ante los demás (Actitud de 'Veneración y Distancia').\n5. AFORISMO DE LA PRUDENCIA: Concluye con un consejo al estilo de Gracián que resuma la acción recomendada.\n"

def INITIAL_GREETING : String :=
  "Saludos. Soy El Consejero del Ingenio. He sido concebido para ser el contrapeso humanista a su lógica de negocio. ¿Qué dilema estratégico desea someter hoy a la criba?"

/-- The fixed string shown when the model call is rejected
(src/index.tsx line 353). -/
def errorMessageText : String :=
  "Error en la criba estratégica. El flujo del ingenio ha sido interrumpido."

/-! ### The GeminiService session object -/

inductive AppMode where
  | normal
  | deep
  | discretion
deriving DecidableEq, Repr

inductive Role where
  | user
  | model
deriving DecidableEq, Repr

/-- A message part sent to the SDK: plain text, or the inline-data part
built from an uploaded file. -/
inductive Part where
  | text (s : String)
  | inlineData (data mimeType : String)
deriving DecidableEq, Repr

structure HistEntry where
  role : Role
  parts : List Part
deriving DecidableEq, Repr

structure GeminiState where
  history : List HistEntry
  currentMode : AppMode
deriving DecidableEq, Repr

/-- `GeminiService.setMode`. -/
def setMode (st : GeminiState) (mode : AppMode) : GeminiState :=
  if st.currentMode ≠ mode then { currentMode := mode, history := [] } else st

/-- `GeminiService.resetHistory`. -/
def resetHistory (st : GeminiState) : GeminiState :=
  { st with history := [] }

/-- Model pick of `sendMessageStream` line 111. -/
def modelNameFor (mode : AppMode) : String :=
  if mode = AppMode.normal then "gemini-3-flash-preview" else "gemini-3-pro-preview"

/-- The base prompt chosen by `getSystemInstruction` lines 103-105. -/
def basePrompt (mode : AppMode) : String :=
  match mode with
  | AppMode.normal => CONSTITUTION_PROMPT
  | AppMode.deep => DEEP_DIVE_PROMPT
  | AppMode.discretion => DISCRETION_PROMPT

/-- The memory-context block of `getSystemInstruction` lines 98-101. -/
def memoryContext (facts preferences : List String) : String :=
  if facts.length > 0 ∨ preferences.length > 0 then
    "\nCONTEXTO PERSISTENTE DEL USUARIO:\n- Hechos: " ++
      String.intercalate ", " facts ++
      "\n- Valores/Preferencias: " ++ String.intercalate ", " preferences ++ "\n"
  else ""

/-- `GeminiService.getSystemInstruction`.  `cell` is the raw stored blob;
the result is `none` when the blob decodes to something on which reading
`memory.facts.length` would throw. -/
def getSystemInstruction (mode : AppMode) (cell : Option String) (now : String) :
    Option String :=
  (memFromJson (getStoredMemory cell now)).map
    (fun fp => basePrompt mode ++ memoryContext fp.1 fp.2)

structure StreamResult where
  yielded : List String
  newState : GeminiState
  ok : Bool
deriving Repr

/-- The parts array of one user turn (`parts.unshift(filePart)` puts the
file part first). -/
def sendParts (message : String) (filePart : Option Part) : List Part :=
  match filePart with
  | some fp => [fp, Part.text message]
  | none => [Part.text message]

/-- `GeminiService.sendMessageStream`.  `chunks` are the `chunk.text`
fields of the SDK's async stream, in arrival order (`none` for a chunk
without text); `streamFails` says whether the request is rejected or the
stream throws after those chunks.  The user turn is pushed onto the
history before the request, so it survives a failure; the model turn and
the 20-entry cap apply only on success. -/
def sendMessageStream (st : GeminiState) (message : String) (filePart : Option Part)
    (chunks : List (Option String)) (streamFails : Bool) : StreamResult :=
  let parts : List Part := sendParts message filePart
  let hist1 : List HistEntry := st.history ++ [⟨Role.user, parts⟩]
  let yielded := chunks.map (fun c => c.getD "")
  let fullText := String.join yielded
  if streamFails then
    { yielded := yielded, newState := { st with history := hist1 }, ok := false }
  else
    let hist2 : List HistEntry := hist1 ++ [⟨Role.model, [Part.text fullText]⟩]
    let hist3 := if hist2.length > 20 then sliceLast 20 hist2 else hist2
    { yielded := yielded, newState := { st with history := hist3 }, ok := true }

/-- `GeminiService.extractInsights`.  `extraction` is the schema-checked
result of the structured JSON call: `none` when the request is rejected
or the response fails to parse into the two arrays (every such error is
caught and swallowed).  A throw inside `updateMemoryFromText` is caught
by the same handler, leaving the store untouched. -/
def extractInsights (store : Store) (now : String)
    (extraction : Option (List String × List String)) : Store :=
  match extraction with
  | none => store
  | some (facts, preferences) =>
    if facts.length > 0 ∨ preferences.length > 0 then
      (updateMemoryFromText store now facts preferences).getD store
    else store

/-! ### The App component: transcript state and event handlers

Timestamps and the `Date.now()`-derived message ids are modelled as
naturals (`now` is the value of `Date.now()` when the handler fires);
the ISO string `new Date().toISOString()` is the separate `nowStr`. -/

inductive MsgRole where
  | user
  | assistant
deriving DecidableEq, Repr

structure Message where
  id : Nat
  role : MsgRole
  content : String
  timestamp : Nat
  mode : AppMode
deriving DecidableEq, Repr

structure AppState where
  messages : List Message
  input : String
  isLoading : Bool
  memory : Json
  currentMode : AppMode
  svc : GeminiState
  storage : Store
deriving Repr

/-- The nondeterministic data of one send: the streamed chunks, whether
the stream throws, and the parsed result of the insight-extraction call. -/
structure SendOracle where
  chunks : List (Option String)
  streamFails : Bool
  extraction : Option (List String × List String)
deriving Repr

structure SendResult where
  state : AppState
  extractRan : Bool
  modelCalls : Nat
deriving Repr

/-- JavaScript `a || b` on strings (an empty string is falsy). -/
def jsOr (a : Option String) (b : String) : String :=
  match a with
  | some s => if s = "" then b else s
  | none => b

def isJsWhitespace (c : Char) : Bool :=
  c = ' ' ∨ c = '\t' ∨ c = '\n' ∨ c = '\r' ∨ c = '\x0b' ∨ c = '\x0c' ∨ c = '\u00A0'

/-- Modelled from the spec: the JavaScript builtin
`String.prototype.trim`, which strips leading and trailing whitespace. -/
def jsTrim (s : String) : String :=
  String.mk (((s.data.dropWhile isJsWhitespace).reverse.dropWhile isJsWhitespace).reverse)

/-- `handleSend` of the `App` component, run to completion.  The
progressive `setMessages` updates during streaming are collapsed to the
final transcript; `extractRan` records whether `extractInsights` was
awaited, and `modelCalls` counts the SDK requests issued. -/
def handleSend (st : AppState) (now : Nat) (nowStr : String)
    (customInput displayMessage : Option String) (filePart : Option Part)
    (o : SendOracle) : SendResult :=
  let textToSend := jsOr customInput st.input
  let messageToDisplay := jsOr displayMessage textToSend
  if jsTrim textToSend = "" ∨ st.isLoading then
    { state := st, extractRan := false, modelCalls := 0 }
  else
    let modeAtSend := st.currentMode
    let userMsg : Message :=
      { id := now, role := MsgRole.user, content := messageToDisplay,
        timestamp := now, mode := modeAtSend }
    let assistId := now + 1
    let msgs2 := st.messages ++ [userMsg,
      { id := assistId, role := MsgRole.assistant, content := "",
        timestamp := now, mode := modeAtSend }]
    let sr := sendMessageStream st.svc textToSend filePart o.chunks o.streamFails
    let fullResponse := String.join sr.yielded
    if sr.ok then
      let msgs3 := msgs2.map
        (fun m => if m.id = assistId then { m with content := fullResponse } else m)
      if modeAtSend = AppMode.normal ∧ filePart = none then
        let storage2 := extractInsights st.storage nowStr o.extraction
        let st2 := { st with
          messages := msgs3
          input := ""
          isLoading := false
          svc := sr.newState
          storage := storage2
          memory := getStoredMemory (lookupStore storage2 MEMORY_KEY) nowStr }
        { state := st2, extractRan := true, modelCalls := 2 }
      else
        let st2 := { st with
          messages := msgs3
          input := ""
          isLoading := false
          svc := sr.newState }
        { state := st2, extractRan := false, modelCalls := 1 }
    else
      let msgs3 := msgs2.map
        (fun m => if m.id = assistId then { m with content := errorMessageText } else m)
      let st2 := { st with
        messages := msgs3
        input := ""
        isLoading := false
        svc := sr.newState }
      { state := st2, extractRan := false, modelCalls := 1 }

/-- `handleClearMemory` of the `App` component; `confirmed` is the
outcome of the `confirm` dialog. -/
def handleClearMemory (st : AppState) (confirmed : Bool) (nowStr : String) : AppState :=
  if confirmed then
    let storage2 := removeItem st.storage MEMORY_KEY
    { st with
      storage := storage2
      memory := getStoredMemory (lookupStore storage2 MEMORY_KEY) nowStr }
  else st

/-! ### Concrete states used by the witnesses -/

def initialSvc : GeminiState :=
  { history := [], currentMode := AppMode.normal }

def initialMessages : List Message :=
  [{ id := 0, role := MsgRole.assistant, content := INITIAL_GREETING,
     timestamp := 0, mode := AppMode.normal }]

def st0 : AppState :=
  { messages := initialMessages, input := "hola", isLoading := false,
    memory := getStoredMemory none "t0", currentMode := AppMode.normal,
    svc := initialSvc, storage := [] }

/-- A valid stored blob holding one fact and one preference. -/
def sampleBlob : String :=
  "\x7b\"facts\":[\"es filósofo\"],\"preferences\":[\"prefiere brevedad\"],\"lastUpdated\":\"t0\"\x7d"

def stDeep : AppState :=
  { messages := initialMessages, input := "texto a auditar", isLoading := false,
    memory := getStoredMemory (some sampleBlob) "t0", currentMode := AppMode.deep,
    svc := { history := [], currentMode := AppMode.deep },
    storage := [(MEMORY_KEY, sampleBlob)] }

def oracleFail : SendOracle :=
  { chunks := [some "frag"], streamFails := true, extraction := none }

def oracleEmptyExtract : SendOracle :=
  { chunks := [some "respuesta"], streamFails := false, extraction := some ([], []) }

def oracleOkExtract : SendOracle :=
  { chunks := [some "bien", none, some "señor"], streamFails := false,
    extraction := some (["dato"], []) }

/-! ## Helper lemmas -/

theorem setDedupGo_spec (l : List String) :
    ∀ seen, (setDedupGo seen l).Nodup ∧ ∀ a ∈ setDedupGo seen l, a ∉ seen := by
  induction l with
  | nil =>
    intro seen
    exact ⟨List.nodup_nil, by intro a ha; cases ha⟩
  | cons a l ih =>
    intro seen
    simp only [setDedupGo]
    by_cases h : a ∈ seen
    · rw [if_pos h]
      exact ih seen
    · rw [if_neg h]
      refine ⟨List.nodup_cons.mpr ⟨?_, (ih (a :: seen)).1⟩, ?_⟩
      · intro hmem
        exact (ih (a :: seen)).2 a hmem (List.mem_cons_self a seen)
      · intro b hb
        rcases List.mem_cons.mp hb with rfl | hb2
        · exact h
        · intro hbseen
          exact (ih (a :: seen)).2 b hb2 (List.mem_cons_of_mem a hbseen)

theorem setDedup_nodup (l : List String) : (setDedup l).Nodup :=
  (setDedupGo_spec l []).1

theorem sliceLast_length_le (n : Nat) (l : List α) : (sliceLast n l).length ≤ n := by
  simp only [sliceLast, List.length_drop]
  omega

theorem sliceLast_nodup {l : List α} (h : l.Nodup) (n : Nat) : (sliceLast n l).Nodup :=
  h.sublist (List.drop_sublist _ _)

theorem sliceLast_eq_self {n : Nat} {l : List α} (h : l.length ≤ n) : sliceLast n l = l := by
  simp only [sliceLast]
  rw [Nat.sub_eq_zero_of_le h, List.drop_zero]

theorem mergeMemoryEntries_length_le (current incoming : List String) :
    (mergeMemoryEntries current incoming).length ≤ 12 :=
  sliceLast_length_le 12 _

theorem mergeMemoryEntries_nodup (current incoming : List String) :
    (mergeMemoryEntries current incoming).Nodup :=
  sliceLast_nodup (setDedup_nodup _) 12

theorem lookupStore_removeItem (store : Store) (key : String) :
    lookupStore (removeItem store key) key = none := by
  induction store with
  | nil => rfl
  | cons kv rest ih =>
    by_cases h : kv.1 = key
    · simpa [removeItem, List.filter_cons, h] using ih
    · simpa [removeItem, List.filter_cons, lookupStore, h] using ih

theorem lookupStore_setItem_ne (store : Store) (key value k : String) (h : k ≠ key) :
    lookupStore (setItem store key value) k = lookupStore store k := by
  induction store with
  | nil =>
    show lookupStore [(key, value)] k = none
    simp [lookupStore, Ne.symm h]
  | cons kv rest ih =>
    by_cases hk : kv.1 = key
    · have hkv : ¬ kv.1 = k := fun e => h ((hk.symm.trans e).symm)
      have h1 : setItem (kv :: rest) key value = setItem rest key value := by
        simp [setItem, List.filter_cons, hk]
      rw [h1, ih]
      simp [lookupStore, hkv]
    · have h1 : setItem (kv :: rest) key value = kv :: setItem rest key value := by
        simp [setItem, List.filter_cons, hk]
      rw [h1]
      by_cases hkk : kv.1 = k
      · simp [lookupStore, hkk]
      · simp [lookupStore, hkk, ih]

theorem extractInsights_lookup_ne (store : Store) (now : String)
    (extraction : Option (List String × List String)) (k : String) (hk : k ≠ MEMORY_KEY) :
    lookupStore (extractInsights store now extraction) k = lookupStore store k := by
  cases extraction with
  | none => rfl
  | some fp =>
    obtain ⟨facts, preferences⟩ := fp
    simp only [extractInsights]
    by_cases hc : facts.length > 0 ∨ preferences.length > 0
    · rw [if_pos hc]
      simp only [updateMemoryFromText]
      cases hdec : memFromJson (getStoredMemory (lookupStore store MEMORY_KEY) now) with
      | none => rfl
      | some cur =>
        obtain ⟨cf, cp⟩ := cur
        simp only [Option.getD_some, saveMemory]
        exact lookupStore_setItem_ne _ _ _ _ hk
    · rw [if_neg hc]

/-! ## Claims -/

/-- C1: for every stored `UserMemory` and all lists of new facts and new
preferences, after `updateMemoryFromText` runs the saved facts list and
the saved preferences list each have length at most 12 and contain no
duplicate entries. -/
theorem updateMemoryFromText_caps_and_dedups (store : Store) (now : String)
    (currentFacts currentPreferences newFacts newPreferences : List String)
    (h : memFromJson (getStoredMemory (lookupStore store MEMORY_KEY) now) =
      some (currentFacts, currentPreferences)) :
    updateMemoryFromText store now newFacts newPreferences =
      some (saveMemory store (mergeMemoryEntries currentFacts newFacts)
        (mergeMemoryEntries currentPreferences newPreferences) now) ∧
    (mergeMemoryEntries currentFacts newFacts).length ≤ 12 ∧
    (mergeMemoryEntries currentFacts newFacts).Nodup ∧
    (mergeMemoryEntries currentPreferences newPreferences).length ≤ 12 ∧
    (mergeMemoryEntries currentPreferences newPreferences).Nodup := by
  refine ⟨?_, mergeMemoryEntries_length_le _ _, mergeMemoryEntries_nodup _ _,
    mergeMemoryEntries_length_le _ _, mergeMemoryEntries_nodup _ _⟩
  simp only [updateMemoryFromText, h]

/-- Witness for C1 at a concrete stored blob. -/
theorem updateMemoryFromText_caps_and_dedups_witness :
    memFromJson (getStoredMemory (lookupStore [(MEMORY_KEY, sampleBlob)] MEMORY_KEY) "t1") =
      some (["es filósofo"], ["prefiere brevedad"]) ∧
    ((mergeMemoryEntries ["es filósofo"] ["vive en Guatemala"]).length ≤ 12 ∧
      (mergeMemoryEntries ["es filósofo"] ["vive en Guatemala"]).Nodup ∧
      (mergeMemoryEntries ["prefiere brevedad"] []).length ≤ 12 ∧
      (mergeMemoryEntries ["prefiere brevedad"] []).Nodup) := by
  have h : memFromJson (getStoredMemory (lookupStore [(MEMORY_KEY, sampleBlob)] MEMORY_KEY) "t1") =
      some (["es filósofo"], ["prefiere brevedad"]) := by rfl
  exact ⟨h, (updateMemoryFromText_caps_and_dedups [(MEMORY_KEY, sampleBlob)] "t1"
    ["es filósofo"] ["prefiere brevedad"] ["vive en Guatemala"] [] h).2⟩

/-- C9: `setMode` with a different mode empties the session history and
switches the mode; `setMode` with the current mode is the identity. -/
theorem setMode_spec (st : GeminiState) (mode : AppMode) :
    (mode ≠ st.currentMode →
      setMode st mode = { history := [], currentMode := mode }) ∧
    (mode = st.currentMode → setMode st mode = st) := by
  constructor
  · intro h
    have h2 : st.currentMode ≠ mode := Ne.symm h
    simp [setMode, h2]
  · intro h
    simp [setMode, h]

/-- Witness for C9: switching away clears the history, re-selecting the
current mode changes nothing. -/
theorem setMode_spec_witness :
    setMode initialSvc AppMode.deep = { history := [], currentMode := AppMode.deep } ∧
    setMode initialSvc AppMode.normal = initialSvc :=
  ⟨(setMode_spec initialSvc AppMode.deep).1 (by decide),
   (setMode_spec initialSvc AppMode.normal).2 rfl⟩

/-- C5: after the confirmed clear-memory action the persisted blob is
removed and a subsequent read returns empty facts and empty preferences. -/
theorem handleClearMemory_clears (st : AppState) (nowStr : String) :
    lookupStore (handleClearMemory st true nowStr).storage MEMORY_KEY = none ∧
    (handleClearMemory st true nowStr).memory = defaultMemoryJson nowStr ∧
    memFromJson (getStoredMemory
      (lookupStore (handleClearMemory st true nowStr).storage MEMORY_KEY) nowStr) =
      some ([], []) := by
  have hrm : lookupStore (handleClearMemory st true nowStr).storage MEMORY_KEY = none := by
    simp only [handleClearMemory, if_pos]
    exact lookupStore_removeItem st.storage MEMORY_KEY
  refine ⟨hrm, ?_, ?_⟩
  · simp only [handleClearMemory, if_pos]
    rw [lookupStore_removeItem st.storage MEMORY_KEY]
    rfl
  · rw [hrm]
    rfl

/-- C10 (as corrected): `getStoredMemory` is total; when the key is
absent or the stored string is not valid JSON it yields the default
record, whose facts and preferences decode to empty lists; when the
string is valid JSON the parsed value is returned as-is, unvalidated. -/
theorem getStoredMemory_total (cell : Option String) (now : String) :
    (cell = none → getStoredMemory cell now = defaultMemoryJson now) ∧
    (∀ s, cell = some s → parseJson s = none →
      getStoredMemory cell now = defaultMemoryJson now) ∧
    (∀ s v, cell = some s → parseJson s = some v → getStoredMemory cell now = v) ∧
    memFromJson (defaultMemoryJson now) = some ([], []) := by
  refine ⟨?_, ?_, ?_, rfl⟩
  · rintro rfl
    rfl
  · rintro s rfl hp
    simp [getStoredMemory, hp]
  · rintro s v rfl hp
    simp [getStoredMemory, hp]

/-- C10 counterexample: the storage cell may hold the valid-JSON string
"null"; `getStoredMemory` then returns JSON `null`, which is not a
`UserMemory` value, refuting the claim that a `UserMemory` (empty in the
two fallback cases only) is always returned. -/
theorem getStoredMemory_null_counterexample :
    parseJson "null" = some Json.null ∧
    getStoredMemory (some "null") "t0" = Json.null ∧
    isUserMemoryJson (getStoredMemory (some "null") "t0") = false ∧
    memFromJson (getStoredMemory (some "null") "t0") = none :=
  ⟨rfl, rfl, rfl, rfl⟩

/-- Witness for C10: the three cases of `getStoredMemory_total` at
concrete inputs (absent key, unparseable string, parseable string). -/
theorem getStoredMemory_total_witness :
    getStoredMemory none "t0" = defaultMemoryJson "t0" ∧
    getStoredMemory (some "not json") "t0" = defaultMemoryJson "t0" ∧
    getStoredMemory (some "true") "t0" = Json.bool true :=
  ⟨(getStoredMemory_total none "t0").1 rfl,
   (getStoredMemory_total (some "not json") "t0").2.1 "not json" rfl (by rfl),
   (getStoredMemory_total (some "true") "t0").2.2.1 "true" (Json.bool true) rfl (by rfl)⟩

theorem memoryContext_ne_empty (facts preferences : List String)
    (h : facts ≠ [] ∨ preferences ≠ []) : memoryContext facts preferences ≠ "" := by
  have hc : facts.length > 0 ∨ preferences.length > 0 := by
    rcases h with h | h
    · exact Or.inl (List.length_pos.mpr h)
    · exact Or.inr (List.length_pos.mpr h)
  simp only [memoryContext, if_pos hc]
  intro he
  have hl := congrArg String.length he
  simp only [String.length_append] at hl
  have h1 : 0 < ("\nCONTEXTO PERSISTENTE DEL USUARIO:\n- Hechos: " : String).length := by
    decide
  have h0 : ("" : String).length = 0 := rfl
  rw [h0] at hl
  omega

/-- C6: the system instruction is the mode's static prompt, with the
memory-context block appended exactly when the stored facts or
preferences are non-empty. -/
theorem getSystemInstruction_spec (mode : AppMode) (cell : Option String) (now : String)
    (facts preferences : List String)
    (h : memFromJson (getStoredMemory cell now) = some (facts, preferences)) :
    getSystemInstruction mode cell now =
      some (basePrompt mode ++ memoryContext facts preferences) ∧
    (facts = [] ∧ preferences = [] →
      getSystemInstruction mode cell now = some (basePrompt mode)) ∧
    (facts ≠ [] ∨ preferences ≠ [] →
      getSystemInstruction mode cell now ≠ some (basePrompt mode)) ∧
    basePrompt AppMode.normal = CONSTITUTION_PROMPT ∧
    basePrompt AppMode.deep = DEEP_DIVE_PROMPT ∧
    basePrompt AppMode.discretion = DISCRETION_PROMPT := by
  have h1 : getSystemInstruction mode cell now =
      some (basePrompt mode ++ memoryContext facts preferences) := by
    simp [getSystemInstruction, h]
  refine ⟨h1, ?_, ?_, rfl, rfl, rfl⟩
  · rintro ⟨rfl, rfl⟩
    rw [h1]
    have hctx : memoryContext [] [] = "" := rfl
    rw [hctx, String.append_empty]
  · intro hne heq
    rw [h1] at heq
    have heq2 : basePrompt mode ++ memoryContext facts preferences = basePrompt mode :=
      Option.some.inj heq
    have hl := congrArg String.length heq2
    rw [String.length_append] at hl
    have hctx : (memoryContext facts preferences).length = 0 := by omega
    apply memoryContext_ne_empty facts preferences hne
    cases he : memoryContext facts preferences with
    | mk data =>
      rw [he] at hctx
      cases data with
      | nil => rfl
      | cons c cs => simp [String.length] at hctx

/-- Witness for C6 at a concrete stored blob in discretion mode. -/
theorem getSystemInstruction_spec_witness :
    getSystemInstruction AppMode.discretion (some sampleBlob) "t0" =
      some (basePrompt AppMode.discretion ++
        memoryContext ["es filósofo"] ["prefiere brevedad"]) ∧
    getSystemInstruction AppMode.discretion (some sampleBlob) "t0" ≠
      some (basePrompt AppMode.discretion) := by
  have h : memFromJson (getStoredMemory (some sampleBlob) "t0") =
      some (["es filósofo"], ["prefiere brevedad"]) := by rfl
  exact ⟨(getSystemInstruction_spec AppMode.discretion (some sampleBlob) "t0"
      ["es filósofo"] ["prefiere brevedad"] h).1,
    (getSystemInstruction_spec AppMode.discretion (some sampleBlob) "t0"
      ["es filósofo"] ["prefiere brevedad"] h).2.2.1 (Or.inl (by decide))⟩

/-- C8: after every completed `sendMessageStream` call the session
history has at most 20 entries, and it is exactly the last 20 entries of
the old history extended by the new user and model turns (oldest dropped
first). -/
theorem sendMessageStream_history_cap (st : GeminiState) (message : String)
    (filePart : Option Part) (chunks : List (Option String)) :
    (sendMessageStream st message filePart chunks false).newState.history.length ≤ 20 ∧
    (sendMessageStream st message filePart chunks false).newState.history =
      sliceLast 20 (st.history ++ [⟨Role.user, sendParts message filePart⟩,
        ⟨Role.model, [Part.text (String.join (chunks.map (fun c => c.getD "")))]⟩]) := by
  have happ : (st.history ++ [(⟨Role.user, sendParts message filePart⟩ : HistEntry)]) ++
      [(⟨Role.model, [Part.text (String.join (chunks.map (fun c => c.getD "")))]⟩ : HistEntry)] =
      st.history ++ [⟨Role.user, sendParts message filePart⟩,
        ⟨Role.model, [Part.text (String.join (chunks.map (fun c => c.getD "")))]⟩] := by
    rw [List.append_assoc]
    rfl
  simp only [sendMessageStream, Bool.false_eq_true, if_false, happ]
  by_cases hlen : (st.history ++ [(⟨Role.user, sendParts message filePart⟩ : HistEntry),
      ⟨Role.model, [Part.text (String.join (chunks.map (fun c => c.getD "")))]⟩]).length > 20
  · rw [if_pos hlen]
    exact ⟨sliceLast_length_le 20 _, rfl⟩
  · rw [if_neg hlen]
    constructor
    · omega
    · exact (sliceLast_eq_self (by omega)).symm

theorem sendMessageStream_ok (st : GeminiState) (message : String) (filePart : Option Part)
    (chunks : List (Option String)) (streamFails : Bool) :
    (sendMessageStream st message filePart chunks streamFails).ok = !streamFails := by
  cases streamFails <;> simp [sendMessageStream]

theorem sendMessageStream_yielded (st : GeminiState) (message : String)
    (filePart : Option Part) (chunks : List (Option String)) (streamFails : Bool) :
    (sendMessageStream st message filePart chunks streamFails).yielded =
      chunks.map (fun c => c.getD "") := by
  cases streamFails <;> simp [sendMessageStream]

theorem sendMessageStream_newState_fail (st : GeminiState) (message : String)
    (filePart : Option Part) (chunks : List (Option String)) :
    (sendMessageStream st message filePart chunks true).newState =
      { st with history := st.history ++ [⟨Role.user, sendParts message filePart⟩] } := by
  simp [sendMessageStream]

theorem getLast?_sliceLast {l : List α} (n : Nat) (hn : 0 < n) (hl : l ≠ []) :
    (sliceLast n l).getLast? = l.getLast? := by
  simp only [sliceLast, List.getLast?_drop]
  rw [if_neg]
  have : 0 < l.length := List.length_pos.mpr hl
  omega

theorem sendMessageStream_newState_ok (st : GeminiState) (message : String)
    (filePart : Option Part) (chunks : List (Option String)) :
    (sendMessageStream st message filePart chunks false).newState.history.getLast? =
      some ⟨Role.model, [Part.text (String.join (chunks.map (fun c => c.getD "")))]⟩ := by
  simp only [sendMessageStream, Bool.false_eq_true, if_false]
  by_cases hlen : ((st.history ++ [(⟨Role.user, sendParts message filePart⟩ : HistEntry)]) ++
      [(⟨Role.model, [Part.text (String.join (chunks.map (fun c => c.getD "")))]⟩ :
        HistEntry)]).length > 20
  · rw [if_pos hlen, getLast?_sliceLast 20 (by omega) (by simp)]
    exact List.getLast?_concat _
  · rw [if_neg hlen]
    exact List.getLast?_concat _

theorem replaceById_append (msgs : List Message) (aid : Nat) (newContent : String)
    (u p : Message) (hmsgs : ∀ m ∈ msgs, m.id ≠ aid) (hu : u.id ≠ aid) (hp : p.id = aid) :
    (msgs ++ [u, p]).map
      (fun m => if m.id = aid then { m with content := newContent } else m) =
      msgs ++ [u, { p with content := newContent }] := by
  rw [List.map_append]
  have h1 : msgs.map
      (fun m => if m.id = aid then { m with content := newContent } else m) = msgs := by
    have h2 := List.map_congr_left (l := msgs)
      (f := fun m => if m.id = aid then { m with content := newContent } else m)
      (g := id) (fun m hm => by simp [hmsgs m hm])
    rw [h2, List.map_id]
  rw [h1]
  simp [hu, hp]

/-- C3: when the stream is rejected the only failure handling is
replacing the placeholder assistant message's content by the fixed error
string; earlier transcript messages, the stored memory blob and the
memory display state are untouched, and exactly one model call was
issued (no retry). -/
theorem handleSend_error_spec (st : AppState) (now : Nat) (nowStr : String)
    (ci dm : Option String) (fp : Option Part) (o : SendOracle)
    (hfail : o.streamFails = true)
    (htext : jsTrim (jsOr ci st.input) ≠ "")
    (hload : st.isLoading = false)
    (hfresh : ∀ m ∈ st.messages, m.id ≠ now + 1) :
    (handleSend st now nowStr ci dm fp o).state.messages =
      st.messages ++
        [{ id := now, role := MsgRole.user, content := jsOr dm (jsOr ci st.input),
           timestamp := now, mode := st.currentMode },
         { id := now + 1, role := MsgRole.assistant, content := errorMessageText,
           timestamp := now, mode := st.currentMode }] ∧
    (handleSend st now nowStr ci dm fp o).state.storage = st.storage ∧
    (handleSend st now nowStr ci dm fp o).state.memory = st.memory ∧
    (handleSend st now nowStr ci dm fp o).extractRan = false ∧
    (handleSend st now nowStr ci dm fp o).modelCalls = 1 := by
  have hguard : ¬(jsTrim (jsOr ci st.input) = "" ∨ st.isLoading = true) := by
    simp [htext, hload]
  have hmap := replaceById_append st.messages (now + 1) errorMessageText
    { id := now, role := MsgRole.user, content := jsOr dm (jsOr ci st.input),
      timestamp := now, mode := st.currentMode }
    { id := now + 1, role := MsgRole.assistant, content := "",
      timestamp := now, mode := st.currentMode }
    hfresh (by simp) rfl
  simp only [handleSend, if_neg hguard, sendMessageStream_ok, hfail, Bool.not_true,
    Bool.false_eq_true, if_false, sendMessageStream_yielded]
  refine ⟨hmap, ?_, ?_, ?_, ?_⟩ <;> trivial

/-- Witness for C3 at a concrete failing send. -/
theorem handleSend_error_spec_witness :
    (handleSend st0 5 "t5" none none none oracleFail).state.messages =
      st0.messages ++
        [{ id := 5, role := MsgRole.user, content := jsOr none (jsOr none st0.input),
           timestamp := 5, mode := st0.currentMode },
         { id := 6, role := MsgRole.assistant, content := errorMessageText,
           timestamp := 5, mode := st0.currentMode }] ∧
    (handleSend st0 5 "t5" none none none oracleFail).state.storage = st0.storage ∧
    (handleSend st0 5 "t5" none none none oracleFail).state.memory = st0.memory ∧
    (handleSend st0 5 "t5" none none none oracleFail).extractRan = false ∧
    (handleSend st0 5 "t5" none none none oracleFail).modelCalls = 1 :=
  handleSend_error_spec st0 5 "t5" none none none oracleFail rfl (by decide) rfl (by decide)

/-- C4: a successful stream yields exactly the SDK's text fragments in
order, and their concatenation is both the model entry appended to the
session history (its last entry) and the final content of the new
assistant message in the transcript. -/
theorem handleSend_stream_concat (st : AppState) (now : Nat) (nowStr : String)
    (ci dm : Option String) (fp : Option Part) (o : SendOracle)
    (hok : o.streamFails = false)
    (htext : jsTrim (jsOr ci st.input) ≠ "")
    (hload : st.isLoading = false)
    (hfresh : ∀ m ∈ st.messages, m.id ≠ now + 1) :
    (sendMessageStream st.svc (jsOr ci st.input) fp o.chunks o.streamFails).yielded =
      o.chunks.map (fun c => c.getD "") ∧
    (sendMessageStream st.svc (jsOr ci st.input) fp o.chunks
        o.streamFails).newState.history.getLast? =
      some ⟨Role.model, [Part.text (String.join (o.chunks.map (fun c => c.getD "")))]⟩ ∧
    (handleSend st now nowStr ci dm fp o).state.messages =
      st.messages ++
        [{ id := now, role := MsgRole.user, content := jsOr dm (jsOr ci st.input),
           timestamp := now, mode := st.currentMode },
         { id := now + 1, role := MsgRole.assistant,
           content := String.join (o.chunks.map (fun c => c.getD "")),
           timestamp := now, mode := st.currentMode }] := by
  have hguard : ¬(jsTrim (jsOr ci st.input) = "" ∨ st.isLoading = true) := by
    simp [htext, hload]
  have hmap := replaceById_append st.messages (now + 1)
    (String.join (o.chunks.map (fun c => c.getD "")))
    { id := now, role := MsgRole.user, content := jsOr dm (jsOr ci st.input),
      timestamp := now, mode := st.currentMode }
    { id := now + 1, role := MsgRole.assistant, content := "",
      timestamp := now, mode := st.currentMode }
    hfresh (by simp) rfl
  refine ⟨sendMessageStream_yielded _ _ _ _ _, ?_, ?_⟩
  · rw [hok]
    exact sendMessageStream_newState_ok st.svc (jsOr ci st.input) fp o.chunks
  · simp only [handleSend, if_neg hguard, sendMessageStream_ok, hok, Bool.not_false,
      if_true, sendMessageStream_yielded]
    by_cases hmode : st.currentMode = AppMode.normal ∧ fp = none
    · simp only [if_pos hmode]
      exact hmap
    · simp only [if_neg hmode]
      exact hmap

/-- Witness for C4 at a concrete successful send. -/
theorem handleSend_stream_concat_witness :
    (sendMessageStream st0.svc (jsOr none st0.input) none oracleOkExtract.chunks
        oracleOkExtract.streamFails).yielded =
      oracleOkExtract.chunks.map (fun c => c.getD "") ∧
    (sendMessageStream st0.svc (jsOr none st0.input) none oracleOkExtract.chunks
        oracleOkExtract.streamFails).newState.history.getLast? =
      some ⟨Role.model,
        [Part.text (String.join (oracleOkExtract.chunks.map (fun c => c.getD "")))]⟩ ∧
    (handleSend st0 7 "t7" none none none oracleOkExtract).state.messages =
      st0.messages ++
        [{ id := 7, role := MsgRole.user, content := jsOr none (jsOr none st0.input),
           timestamp := 7, mode := st0.currentMode },
         { id := 8, role := MsgRole.assistant,
           content := String.join (oracleOkExtract.chunks.map (fun c => c.getD "")),
           timestamp := 7, mode := st0.currentMode }] :=
  handleSend_stream_concat st0 7 "t7" none none none oracleOkExtract rfl (by decide) rfl
    (by decide)

/-- C7: every accepted send appends exactly the user message and one
assistant message to the transcript, preserving all earlier messages and
their order, and no storage key other than the memory blob's is
written. -/
theorem handleSend_transcript_isolation (st : AppState) (now : Nat) (nowStr : String)
    (ci dm : Option String) (fp : Option Part) (o : SendOracle)
    (htext : jsTrim (jsOr ci st.input) ≠ "")
    (hload : st.isLoading = false)
    (hfresh : ∀ m ∈ st.messages, m.id ≠ now + 1) :
    (handleSend st now nowStr ci dm fp o).state.messages =
      st.messages ++
        [{ id := now, role := MsgRole.user, content := jsOr dm (jsOr ci st.input),
           timestamp := now, mode := st.currentMode },
         { id := now + 1, role := MsgRole.assistant,
           content := if o.streamFails then errorMessageText
             else String.join (o.chunks.map (fun c => c.getD "")),
           timestamp := now, mode := st.currentMode }] ∧
    (∀ k, k ≠ MEMORY_KEY →
      lookupStore (handleSend st now nowStr ci dm fp o).state.storage k =
        lookupStore st.storage k) := by
  have hguard : ¬(jsTrim (jsOr ci st.input) = "" ∨ st.isLoading = true) := by
    simp [htext, hload]
  cases hfail : o.streamFails with
  | true =>
    have hmap := replaceById_append st.messages (now + 1) errorMessageText
      { id := now, role := MsgRole.user, content := jsOr dm (jsOr ci st.input),
        timestamp := now, mode := st.currentMode }
      { id := now + 1, role := MsgRole.assistant, content := "",
        timestamp := now, mode := st.currentMode }
      hfresh (by simp) rfl
    simp only [handleSend, if_neg hguard, sendMessageStream_ok, hfail, Bool.not_true,
      Bool.false_eq_true, if_false, if_true, sendMessageStream_yielded]
    exact ⟨hmap, by intro k hk; trivial⟩
  | false =>
    have hmap := replaceById_append st.messages (now + 1)
      (String.join (o.chunks.map (fun c => c.getD "")))
      { id := now, role := MsgRole.user, content := jsOr dm (jsOr ci st.input),
        timestamp := now, mode := st.currentMode }
      { id := now + 1, role := MsgRole.assistant, content := "",
        timestamp := now, mode := st.currentMode }
      hfresh (by simp) rfl
    simp only [handleSend, if_neg hguard, sendMessageStream_ok, hfail, Bool.not_false,
      Bool.false_eq_true, if_false, if_true, sendMessageStream_yielded]
    by_cases hmode : st.currentMode = AppMode.normal ∧ fp = none
    · simp only [if_pos hmode]
      exact ⟨hmap, fun k hk => extractInsights_lookup_ne st.storage nowStr o.extraction k hk⟩
    · simp only [if_neg hmode]
      exact ⟨hmap, by intro k hk; trivial⟩

/-- Witness for C7 at a concrete send in deep mode. -/
theorem handleSend_transcript_isolation_witness :
    (handleSend stDeep 9 "t9" none none none oracleEmptyExtract).state.messages =
      stDeep.messages ++
        [{ id := 9, role := MsgRole.user, content := jsOr none (jsOr none stDeep.input),
           timestamp := 9, mode := stDeep.currentMode },
         { id := 10, role := MsgRole.assistant,
           content := if oracleEmptyExtract.streamFails then errorMessageText
             else String.join (oracleEmptyExtract.chunks.map (fun c => c.getD "")),
           timestamp := 9, mode := stDeep.currentMode }] ∧
    (∀ k, k ≠ MEMORY_KEY →
      lookupStore (handleSend stDeep 9 "t9" none none none oracleEmptyExtract).state.storage k =
        lookupStore stDeep.storage k) :=
  handleSend_transcript_isolation stDeep 9 "t9" none none none oracleEmptyExtract
    (by decide) rfl (by decide)

/-- C2 (as corrected): `extractInsights` is awaited exactly for completed
normal-mode exchanges without an attached file, and the stored memory
blob is unchanged in deep or discretion mode, when extraction fails, or
when extraction yields no facts and no preferences. -/
theorem handleSend_extraction_spec (st : AppState) (now : Nat) (nowStr : String)
    (ci dm : Option String) (fp : Option Part) (o : SendOracle)
    (htext : jsTrim (jsOr ci st.input) ≠ "")
    (hload : st.isLoading = false) :
    ((handleSend st now nowStr ci dm fp o).extractRan = true ↔
      (st.currentMode = AppMode.normal ∧ fp = none ∧ o.streamFails = false)) ∧
    (st.currentMode ≠ AppMode.normal →
      (handleSend st now nowStr ci dm fp o).state.storage = st.storage) ∧
    (o.extraction = none →
      (handleSend st now nowStr ci dm fp o).state.storage = st.storage) ∧
    (o.extraction = some ([], []) →
      (handleSend st now nowStr ci dm fp o).state.storage = st.storage) := by
  have hguard : ¬(jsTrim (jsOr ci st.input) = "" ∨ st.isLoading = true) := by
    simp [htext, hload]
  cases hfail : o.streamFails with
  | true =>
    simp only [handleSend, if_neg hguard, sendMessageStream_ok, hfail, Bool.not_true,
      Bool.false_eq_true, if_false]
    refine ⟨?_, fun _ => trivial, fun _ => trivial, fun _ => trivial⟩
    simp
  | false =>
    simp only [handleSend, if_neg hguard, sendMessageStream_ok, hfail, Bool.not_false,
      Bool.false_eq_true, if_false, if_true]
    by_cases hmode : st.currentMode = AppMode.normal ∧ fp = none
    · simp only [if_pos hmode]
      refine ⟨by simp [hmode.1, hmode.2], fun hne => absurd hmode.1 hne, ?_, ?_⟩
      · intro he
        simp only [extractInsights, he]
      · intro he
        simp only [he, extractInsights]
        rfl
    · simp only [if_neg hmode]
      refine ⟨by simp [hmode], fun _ => trivial, fun _ => trivial, fun _ => trivial⟩

/-- C2 counterexample: a completed normal-mode exchange whose extraction
call yields no facts and no preferences leaves the stored memory
unchanged, refuting the claim that every normal-mode exchange mutates
the stored UserMemory. -/
theorem handleSend_extraction_counterexample :
    st0.currentMode = AppMode.normal ∧
    oracleEmptyExtract.streamFails = false ∧
    (handleSend st0 1 "t1" none none none oracleEmptyExtract).extractRan = true ∧
    (handleSend st0 1 "t1" none none none oracleEmptyExtract).state.storage =
      st0.storage :=
  ⟨rfl, rfl, rfl, rfl⟩

/-- Witness for C2 at a concrete deep-mode send. -/
theorem handleSend_extraction_spec_witness :
    ((handleSend stDeep 3 "t3" none none none oracleOkExtract).extractRan = true ↔
      (stDeep.currentMode = AppMode.normal ∧ (none : Option Part) = none ∧
        oracleOkExtract.streamFails = false)) ∧
    (stDeep.currentMode ≠ AppMode.normal →
      (handleSend stDeep 3 "t3" none none none oracleOkExtract).state.storage =
        stDeep.storage) :=
  ⟨(handleSend_extraction_spec stDeep 3 "t3" none none none oracleOkExtract
      (by decide) rfl).1,
   (handleSend_extraction_spec stDeep 3 "t3" none none none oracleOkExtract
      (by decide) rfl).2.1⟩

end Criba
